import Mathlib

/-!
Verification of the Met Museum Streamlit front-end (`streamlit_app.py`).

The file shallowly embeds the three HTTP wrappers (`fetch_departments`,
`search_ids`, `fetch_object`) and the result-rendering loop of the app.
HTTP interactions are modelled by an `HttpResult` value describing the
outcome the `requests` library delivers to the Python code (a completed
response with a status code and an optional parsed-JSON body, a timeout,
or a connection error).  Python/JSON values are modelled by `PyVal`;
raising Python exceptions is modelled with `Except PyErr`.
-/

/-- Python/JSON values as manipulated by the app: `None`, booleans,
integers, strings, lists and string-keyed dicts (insertion ordered). -/
inductive PyVal where
  | none
  | bool (b : Bool)
  | int (n : Int)
  | str (s : String)
  | list (xs : List PyVal)
  | dict (kvs : List (String × PyVal))

/-- Python exception kinds that the embedded code can raise. -/
inductive PyErr where
  | timeoutErr
  | connectionErr
  | httpErr (status : Nat)
  | jsonErr
  | attributeErr
  | typeErr
  | valueErr
  deriving DecidableEq

/-- Outcome of a `requests.get` call as seen by the Python code: a completed
response (final status code plus the parsed JSON body, `Option.none` when
the body is not valid JSON so that `r.json()` raises), a timeout, or a
connection-level error. -/
inductive HttpResult where
  | timeout
  | connError
  | response (status : Nat) (body : Option PyVal)

/-- Python `d.get(k)` on a string-keyed dict: value of the first (unique)
matching key, `None` when the key is absent. -/
def dictGet : List (String × PyVal) → String → PyVal
  | [], _ => PyVal.none
  | kv :: rest, k => if kv.1 = k then kv.2 else dictGet rest k

/-- Python `d.get(k, default)`. -/
def dictGetD : List (String × PyVal) → String → PyVal → PyVal
  | [], _, dflt => dflt
  | kv :: rest, k, dflt => if kv.1 = k then kv.2 else dictGetD rest k dflt

/-- Python `d[k] = v`: overwrite the value of an existing key in place,
otherwise append the new pair at the end (insertion order). -/
def dictSet : List (String × PyVal) → String → PyVal → List (String × PyVal)
  | [], k, v => [(k, v)]
  | kv :: rest, k, v => if kv.1 = k then (k, v) :: rest else kv :: dictSet rest k v

/-- Python truthiness of the modelled values. -/
def pyTruthy : PyVal → Bool
  | PyVal.none => false
  | PyVal.bool b => b
  | PyVal.int n => n != 0
  | PyVal.str s => !s.isEmpty
  | PyVal.list xs => !xs.isEmpty
  | PyVal.dict kvs => !kvs.isEmpty

/-- Python `a or b`. -/
def pyOr (a b : PyVal) : PyVal := if pyTruthy a then a else b

/-- Decimal rendering of an integer, as Python's `str(int)` produces it
(same digit algorithm as CPython: base-10 digits, `-` sign). -/
def pyIntStr : Int → String
  | Int.ofNat m => ⟨Nat.toDigits 10 m⟩
  | Int.negSucc m => "-" ++ ⟨Nat.toDigits 10 (m + 1)⟩

/-- Python `repr()` restricted to the modelled values.  String escaping of
quotes/backslashes inside nested strings is not modelled (no code path of
the app formats a container holding such a string). -/
def pyRepr : PyVal → String
  | PyVal.none => "None"
  | PyVal.bool true => "True"
  | PyVal.bool false => "False"
  | PyVal.int n => pyIntStr n
  | PyVal.str s => "'" ++ s ++ "'"
  | PyVal.list xs =>
      "[" ++ String.intercalate ", " (xs.attach.map (fun a => pyRepr a.1)) ++ "]"
  | PyVal.dict kvs =>
      "\x7b" ++ String.intercalate ", "
        (kvs.attach.map (fun a => "'" ++ a.1.1 ++ "': " ++ pyRepr a.1.2)) ++ "\x7d"
decreasing_by
  · have h := List.sizeOf_lt_of_mem a.2
    simp only [PyVal.list.sizeOf_spec]
    omega
  · have h := List.sizeOf_lt_of_mem a.2
    have h2 : sizeOf a.1.2 < sizeOf a.1 := by
      obtain ⟨x, y⟩ := a.1
      simp only [Prod.mk.sizeOf_spec]
      omega
    simp only [PyVal.dict.sizeOf_spec]
    omega

/-- Python `str()` / f-string formatting of the modelled values.  Scalar
cases are spelled out so that they unfold by `rfl`; containers defer to
`repr`, exactly as CPython's `str` does. -/
def pyStr : PyVal → String
  | PyVal.none => "None"
  | PyVal.bool true => "True"
  | PyVal.bool false => "False"
  | PyVal.int n => pyIntStr n
  | PyVal.str s => s
  | PyVal.list xs => pyRepr (PyVal.list xs)
  | PyVal.dict kvs => pyRepr (PyVal.dict kvs)

/-- `r.raise_for_status()`: raises `HTTPError` exactly for 4xx/5xx final
status codes. -/
def raiseForStatus (s : Nat) : Except PyErr Unit :=
  if 400 ≤ s ∧ s < 600 then Except.error (PyErr.httpErr s) else Except.ok ()

/-- Characters Python's default `str.strip()` removes (ASCII whitespace). -/
def pyIsSpace (c : Char) : Bool :=
  c == ' ' || c == '\t' || c == '\n' || c == '\x0d' || c == '\x0b' || c == '\x0c'

/-- Python `s.strip()`. -/
def pyStrip (s : String) : String :=
  ⟨((s.data.dropWhile pyIsSpace).reverse.dropWhile pyIsSpace).reverse⟩

/-- Python `int(x)` applied to a stripped decimal string. -/
def pyStrToInt (s : String) : Except PyErr Int :=
  let t := ((s.data.dropWhile pyIsSpace).reverse.dropWhile pyIsSpace).reverse
  let core : List Char :=
    match t with
    | '-' :: rest => rest
    | '+' :: rest => rest
    | _ => t
  let neg : Bool := match t with | '-' :: _ => true | _ => false
  if core ≠ [] ∧ core.all Char.isDigit then
    let v : Nat := core.foldl (fun acc c => 10 * acc + (c.toNat - 48)) 0
    Except.ok (if neg then -(v : Int) else (v : Int))
  else Except.error PyErr.valueErr

/-- Python `int(x)` on the modelled values (underscore/unicode digit
support of CPython is not modelled; no code path of the app needs it). -/
def pyToInt : PyVal → Except PyErr Int
  | PyVal.int n => Except.ok n
  | PyVal.bool b => Except.ok (if b then 1 else 0)
  | PyVal.str s => pyStrToInt s
  | _ => Except.error PyErr.typeErr

/-! ## The three HTTP wrappers of `streamlit_app.py` -/

/-- The department label the app builds for a catalog entry `d` (a dict):
the f-string `f"{d.get('displayName','Unknown')} ({d.get('departmentId')})"`. -/
def deptLabel (kvs : List (String × PyVal)) : String :=
  pyStr (dictGetD kvs "displayName" (PyVal.str "Unknown")) ++ " (" ++
    pyStr (dictGet kvs "departmentId") ++ ")"

/-- Python `for d in depts` iteration: lists yield their elements, strings
their one-character substrings, dicts their keys; other values raise
`TypeError`. -/
def pyIter : PyVal → Except PyErr (List PyVal)
  | PyVal.list xs => Except.ok xs
  | PyVal.str s => Except.ok (s.data.map (fun c => PyVal.str ⟨[c]⟩))
  | PyVal.dict kvs => Except.ok (kvs.map (fun kv => PyVal.str kv.1))
  | _ => Except.error PyErr.typeErr

/-- The `for d in depts` loop body of `fetch_departments`: append the label
to `options` and assign `mapping[label] = d.get("departmentId")`.  A
non-dict element raises `AttributeError` at `d.get`. -/
def buildDepts : List PyVal → List String → List (String × PyVal) →
    Except PyErr (List String × List (String × PyVal))
  | [], opts, m => Except.ok (opts, m)
  | d :: rest, opts, m =>
    match d with
    | PyVal.dict kvs =>
        buildDepts rest (opts ++ [deptLabel kvs])
          (dictSet m (deptLabel kvs) (dictGet kvs "departmentId"))
    | _ => Except.error PyErr.attributeErr

/-- The body of the `try:` block of `fetch_departments`. -/
def tryFetchDepartments (o : HttpResult) :
    Except PyErr (List String × List (String × PyVal)) :=
  match o with
  | HttpResult.timeout => Except.error PyErr.timeoutErr
  | HttpResult.connError => Except.error PyErr.connectionErr
  | HttpResult.response s body =>
    match raiseForStatus s with
    | Except.error e => Except.error e
    | Except.ok _ =>
      match body with
      | Option.none => Except.error PyErr.jsonErr
      | Option.some js =>
        match pyOr js (PyVal.dict []) with
        | PyVal.dict kvs =>
          match pyIter (dictGetD kvs "departments" (PyVal.list [])) with
          | Except.error e => Except.error e
          | Except.ok ds =>
              buildDepts ds ["All Departments"] [("All Departments", PyVal.none)]
        | _ => Except.error PyErr.attributeErr

/-- `fetch_departments()`: the `try:` body with `except Exception:`
returning the single-element fallback. -/
def fetch_departments (o : HttpResult) : List String × List (String × PyVal) :=
  match tryFetchDepartments o with
  | Except.ok r => r
  | Except.error _ => (["All Departments"], [("All Departments", PyVal.none)])

/-- The query parameters `search_ids` sends: `q` and `hasImages` always,
`departmentId` only when `if department_id:` is truthy (i.e. the optional
integer is present and nonzero). -/
def search_params (q : String) (has_images : Bool) (department_id : Option Int) :
    List (String × PyVal) :=
  let params := [("q", PyVal.str q), ("hasImages", PyVal.bool has_images)]
  match department_id with
  | Option.some d => if d ≠ 0 then params ++ [("departmentId", PyVal.int d)] else params
  | Option.none => params

/-- `search_ids(q, has_images, department_id)`: sends its single HTTP
request carrying `search_params q has_images department_id` (`server`
maps the outbound request to the delivered outcome) and returns
`(data.get("objectIDs") or [], int(data.get("total", 0)))`;
`raise_for_status` and `r.json()` failures propagate. -/
def search_ids (q : String) (has_images : Bool) (department_id : Option Int)
    (server : List (String × PyVal) → HttpResult) : Except PyErr (PyVal × Int) :=
  match server (search_params q has_images department_id) with
  | HttpResult.timeout => Except.error PyErr.timeoutErr
  | HttpResult.connError => Except.error PyErr.connectionErr
  | HttpResult.response s body =>
    match raiseForStatus s with
    | Except.error e => Except.error e
    | Except.ok _ =>
      match body with
      | Option.none => Except.error PyErr.jsonErr
      | Option.some js =>
        match pyOr js (PyVal.dict []) with
        | PyVal.dict kvs =>
          match pyToInt (dictGetD kvs "total" (PyVal.int 0)) with
          | Except.ok t =>
              Except.ok (pyOr (dictGet kvs "objectIDs") (PyVal.list []), t)
          | Except.error e => Except.error e
        | _ => Except.error PyErr.attributeErr

/-- `fetch_object(oid)` applied to the outcome of its HTTP request: the
parsed body when (and only when) the status is exactly 200, `None` for any
other completed status.  There is no `try:` around the request, so a
timeout or connection error propagates, as does a JSON decode failure of a
status-200 body. -/
def fetch_object (o : HttpResult) : Except PyErr (Option PyVal) :=
  match o with
  | HttpResult.timeout => Except.error PyErr.timeoutErr
  | HttpResult.connError => Except.error PyErr.connectionErr
  | HttpResult.response s body =>
    if s = 200 then
      match body with
      | Option.some js => Except.ok (Option.some js)
      | Option.none => Except.error PyErr.jsonErr
    else Except.ok Option.none

/-! ## The presentation layer (search handler and render loop) -/

/-- What the `if search_btn:` handler does before any network call. -/
inductive HandlerStep where
  | warned
  | searched (q : String) (has_images : Bool) (department_id : Option Int)

/-- The `if search_btn:` handler up to the `search_ids` call: an empty
stripped keyword warns and stops (`st.stop()`), otherwise `search_ids` is
invoked on the stripped query. -/
def search_btn_handler (q : String) (has_images : Bool) (dept_id : Option Int) :
    HandlerStep :=
  if pyStrip q = "" then HandlerStep.warned
  else HandlerStep.searched (pyStrip q) has_images dept_id

/-- One rendered result card.  A fetched artwork record is a JSON object,
modelled as its key/value list. -/
structure Card where
  oid : Int
  col : Nat
  image : PyVal
  title : PyVal
  artistLine : String
  medium : Option PyVal
  link : Option PyVal

/-- The card the loop body renders for enumerate-index `i`, object id
`oid` and fetched record `kvs` (placed in column `i % 3`). -/
def renderCard (i : Nat) (oid : Int) (kvs : List (String × PyVal)) : Card :=
  { oid := oid
    col := i % 3
    image := pyOr (dictGet kvs "primaryImageSmall")
      (pyOr (dictGet kvs "primaryImage") (PyVal.str ""))
    title := pyOr (dictGet kvs "title") (PyVal.str "Untitled")
    artistLine := pyStr (pyOr (dictGet kvs "artistDisplayName") (PyVal.str "Unknown"))
      ++ " · " ++ pyStr (pyOr (dictGet kvs "objectDate") (PyVal.str ""))
    medium := if pyTruthy (dictGet kvs "medium")
      then Option.some (dictGet kvs "medium") else Option.none
    link := if pyTruthy (dictGet kvs "objectURL")
      then Option.some (dictGet kvs "objectURL") else Option.none }

/-- The `for i, oid in enumerate(ids[:max_n])` loop: fetch each id once;
`if not obj: continue` skips a fetch outcome that is absent (`None`) or a
falsy record (empty object); otherwise a card is rendered.  `fetch` gives
the per-object fetch outcome (an artwork record is a JSON object). -/
def renderLoop (fetch : Int → Option (List (String × PyVal))) :
    Nat → List Int → List Card
  | _, [] => []
  | i, oid :: rest =>
    match fetch oid with
    | Option.none => renderLoop fetch (i + 1) rest
    | Option.some kvs =>
      if kvs.isEmpty then renderLoop fetch (i + 1) rest
      else renderCard i oid kvs :: renderLoop fetch (i + 1) rest

/-- The whole result grid: the loop applied to `ids[:max_n]` starting at
enumerate index 0. -/
def renderCards (fetch : Int → Option (List (String × PyVal)))
    (ids : List Int) (max_n : Nat) : List Card :=
  renderLoop fetch 0 (ids.take max_n)

/-! ## Decimal strings: correspondence with `Nat.digits`, injectivity -/

/-- `Nat.toDigitsCore` (the renderer behind `pyIntStr`) agrees with the
reversed `Nat.digits` expansion whenever the fuel suffices. -/
theorem toDigitsCore_eq_digits :
    ∀ (f n : Nat) (acc : List Char), n < f → 0 < n →
      Nat.toDigitsCore 10 f n acc =
        ((Nat.digits 10 n).map Nat.digitChar).reverse ++ acc := by
  intro f
  induction f with
  | zero => intro n acc hf _; omega
  | succ g ih =>
    intro n acc hf hn
    rw [Nat.digits_def' (by norm_num : (1:Nat) < 10) hn]
    simp only [Nat.toDigitsCore]
    by_cases h0 : n / 10 = 0
    · simp [h0, Nat.digits_zero]
    · have hlt : n / 10 < n := Nat.div_lt_self hn (by norm_num)
      have hg : n / 10 < g := by omega
      rw [if_neg h0, ih (n / 10) _ hg (Nat.pos_of_ne_zero h0)]
      simp [List.append_assoc]

theorem toDigits_eq_digits (n : Nat) (hn : 0 < n) :
    Nat.toDigits 10 n = ((Nat.digits 10 n).map Nat.digitChar).reverse := by
  have h := toDigitsCore_eq_digits (n + 1) n [] (by omega) hn
  simpa [Nat.toDigits] using h

theorem toDigits_zero : Nat.toDigits 10 0 = ['0'] := by
  decide

theorem digitChar_isDigit : ∀ d < 10, (Nat.digitChar d).isDigit = true := by
  decide

theorem digitChar_injOn : ∀ d1 < 10, ∀ d2 < 10,
    Nat.digitChar d1 = Nat.digitChar d2 → d1 = d2 := by
  decide

theorem toDigits_isDigit (n : Nat) :
    ∀ c ∈ Nat.toDigits 10 n, c.isDigit = true := by
  rcases Nat.eq_zero_or_pos n with rfl | hn
  · rw [toDigits_zero]; decide
  · rw [toDigits_eq_digits n hn]
    intro c hc
    rw [List.mem_reverse, List.mem_map] at hc
    obtain ⟨d, hd, rfl⟩ := hc
    exact digitChar_isDigit d (Nat.digits_lt_base (by norm_num) hd)

theorem toDigits_ne_nil (n : Nat) : Nat.toDigits 10 n ≠ [] := by
  rcases Nat.eq_zero_or_pos n with rfl | hn
  · rw [toDigits_zero]; simp
  · rw [toDigits_eq_digits n hn]
    simp [Nat.digits_ne_nil_iff_ne_zero.mpr (Nat.pos_iff_ne_zero.mp hn)]

theorem map_digitChar_inj :
    ∀ l1 l2 : List Nat, (∀ x ∈ l1, x < 10) → (∀ x ∈ l2, x < 10) →
      l1.map Nat.digitChar = l2.map Nat.digitChar → l1 = l2 := by
  intro l1
  induction l1 with
  | nil => intro l2 _ _ h; cases l2 <;> simp_all
  | cons a l ih =>
    intro l2 h1 h2 h
    cases l2 with
    | nil => simp at h
    | cons b l2' =>
      simp only [List.map_cons, List.cons.injEq] at h
      have ha := h1 a (by simp)
      have hb := h2 b (by simp)
      have : a = b := digitChar_injOn a ha b hb h.1
      subst this
      rw [ih l2' (fun x hx => h1 x (by simp [hx])) (fun x hx => h2 x (by simp [hx])) h.2]

theorem toDigits_inj (n m : Nat) (h : Nat.toDigits 10 n = Nat.toDigits 10 m) :
    n = m := by
  rcases Nat.eq_zero_or_pos n with rfl | hn <;> rcases Nat.eq_zero_or_pos m with rfl | hm
  · rfl
  · exfalso
    rw [toDigits_zero, toDigits_eq_digits m hm] at h
    have h' := congrArg List.reverse h
    simp only [List.reverse_reverse] at h'
    have hlen : (Nat.digits 10 m).length = 1 := by
      have := congrArg List.length h'
      simp at this
      omega
    obtain ⟨d, hd⟩ := List.length_eq_one.mp hlen
    rw [hd] at h'
    simp only [List.map_cons, List.map_nil] at h'
    have hd10 : d < 10 := Nat.digits_lt_base (by norm_num) (by rw [hd]; simp)
    have : d = 0 := by
      apply digitChar_injOn d hd10 0 (by norm_num)
      have : Nat.digitChar d = '0' := by
        have := h'.symm
        simpa using this
      simpa using this
    subst this
    have := Nat.ofDigits_digits 10 m
    rw [hd] at this
    simp [Nat.ofDigits] at this
    omega
  · exfalso
    rw [toDigits_zero, toDigits_eq_digits n hn] at h
    have h' := congrArg List.reverse h
    simp only [List.reverse_reverse] at h'
    have hlen : (Nat.digits 10 n).length = 1 := by
      have := congrArg List.length h'
      simp at this
      omega
    obtain ⟨d, hd⟩ := List.length_eq_one.mp hlen
    rw [hd] at h'
    simp only [List.map_cons, List.map_nil] at h'
    have hd10 : d < 10 := Nat.digits_lt_base (by norm_num) (by rw [hd]; simp)
    have : d = 0 := by
      apply digitChar_injOn d hd10 0 (by norm_num)
      have : Nat.digitChar d = '0' := by simpa using h'
      simpa using this
    subst this
    have := Nat.ofDigits_digits 10 n
    rw [hd] at this
    simp [Nat.ofDigits] at this
    omega
  · rw [toDigits_eq_digits n hn, toDigits_eq_digits m hm] at h
    have h' := congrArg List.reverse h
    simp only [List.reverse_reverse] at h'
    have := map_digitChar_inj _ _
      (fun x hx => Nat.digits_lt_base (by norm_num) hx)
      (fun x hx => Nat.digits_lt_base (by norm_num) hx) h'
    exact Nat.digits_inj_iff.mp this

/-! ## `pyIntStr`: character shape and injectivity -/

theorem pyIntStr_data_ofNat (m : Nat) :
    (pyIntStr (Int.ofNat m)).data = Nat.toDigits 10 m := rfl

theorem pyIntStr_data_negSucc (m : Nat) :
    (pyIntStr (Int.negSucc m)).data = '-' :: Nat.toDigits 10 (m + 1) := rfl

theorem pyIntStr_no_lparen (v : Int) : ∀ c ∈ (pyIntStr v).data, c ≠ '(' := by
  cases v with
  | ofNat m =>
    rw [pyIntStr_data_ofNat]
    intro c hc he
    have := toDigits_isDigit m c hc
    subst he
    simp [Char.isDigit] at this
  | negSucc m =>
    rw [pyIntStr_data_negSucc]
    intro c hc he
    rcases List.mem_cons.mp hc with h | h
    · subst h; simp at he
    · have := toDigits_isDigit (m + 1) c h
      subst he
      simp [Char.isDigit] at this

theorem pyIntStr_inj (v w : Int) (h : pyIntStr v = pyIntStr w) : v = w := by
  have hd := congrArg String.data h
  cases v with
  | ofNat m =>
    cases w with
    | ofNat k =>
      rw [pyIntStr_data_ofNat, pyIntStr_data_ofNat] at hd
      rw [toDigits_inj m k hd]
    | negSucc k =>
      rw [pyIntStr_data_ofNat, pyIntStr_data_negSucc] at hd
      exfalso
      have : '-' ∈ Nat.toDigits 10 m := by rw [hd]; simp
      have := toDigits_isDigit m '-' this
      simp [Char.isDigit] at this
  | negSucc m =>
    cases w with
    | ofNat k =>
      rw [pyIntStr_data_negSucc, pyIntStr_data_ofNat] at hd
      exfalso
      have : '-' ∈ Nat.toDigits 10 k := by rw [← hd]; simp
      have := toDigits_isDigit k '-' this
      simp [Char.isDigit] at this
    | negSucc k =>
      rw [pyIntStr_data_negSucc, pyIntStr_data_negSucc] at hd
      simp only [List.cons.injEq, true_and] at hd
      have := toDigits_inj (m + 1) (k + 1) hd
      have hmk : m = k := by omega
      rw [hmk]

/-! ## Splitting a label at its final " (...)" group -/

/-- Uniqueness of splitting a list at the first occurrence of an element. -/
theorem splitAtFirst {α : Type} (x : α) :
    ∀ (a : List α), x ∉ a → ∀ (c : List α), x ∉ c → ∀ (b d : List α),
      a ++ x :: b = c ++ x :: d → a = c ∧ b = d := by
  intro a
  induction a with
  | nil =>
    intro _ c hc b d h
    cases c with
    | nil => simpa using h
    | cons z c' =>
      exfalso
      simp only [List.nil_append, List.cons_append, List.cons.injEq] at h
      exact hc (by simp [h.1])
  | cons y a' ih =>
    intro ha c hc b d h
    cases c with
    | nil =>
      exfalso
      simp only [List.cons_append, List.nil_append, List.cons.injEq] at h
      exact ha (by simp [h.1])
    | cons z c' =>
      simp only [List.cons_append, List.cons.injEq] at h
      obtain ⟨rfl, h2⟩ := h
      have := ih (fun hm => ha (by simp [hm])) c' (fun hm => hc (by simp [hm])) b d h2
      exact ⟨by rw [this.1], this.2⟩

/-- Two labels of the form `s ++ " (" ++ t ++ ")"`, with `t` free of
opening parentheses, agree exactly when their components agree. -/
theorem label_parts_eq (s1 s2 t1 t2 : String)
    (h1 : ∀ c ∈ t1.data, c ≠ '(') (h2 : ∀ c ∈ t2.data, c ≠ '(')
    (h : s1 ++ " (" ++ t1 ++ ")" = s2 ++ " (" ++ t2 ++ ")") :
    s1 = s2 ∧ t1 = t2 := by
  have hd := congrArg String.data h
  simp only [String.data_append] at hd
  have hr := congrArg List.reverse hd
  simp only [List.reverse_append, List.reverse_cons, List.reverse_nil,
    List.nil_append, List.cons_append, List.append_assoc] at hr
  simp only [List.cons.injEq, true_and] at hr
  have hm1 : '(' ∉ t1.data.reverse := by
    intro hm; exact h1 '(' (List.mem_reverse.mp hm) rfl
  have hm2 : '(' ∉ t2.data.reverse := by
    intro hm; exact h2 '(' (List.mem_reverse.mp hm) rfl
  have hs := splitAtFirst '(' t1.data.reverse hm1 t2.data.reverse hm2
    (' ' :: s1.data.reverse) (' ' :: s2.data.reverse) (by simpa using hr)
  constructor
  · apply String.ext
    have := hs.2
    simp only [List.cons.injEq, true_and] at this
    have := congrArg List.reverse this
    simpa using this
  · apply String.ext
    have := congrArg List.reverse hs.1
    simpa using this

/-- A label of the form `s ++ " (" ++ t ++ ")"` is never the sentinel
option `"All Departments"` (it ends in a closing parenthesis). -/
theorem label_ne_sentinel (s t : String) :
    s ++ " (" ++ t ++ ")" ≠ "All Departments" := by
  intro h
  have hd := congrArg (fun u => u.data.reverse.head?) h
  simp only [String.data_append] at hd
  simp only [List.reverse_append, List.reverse_cons, List.reverse_nil,
    List.nil_append, List.cons_append, List.head?_cons] at hd
  simp at hd

/-! ## Department catalog: success-path characterisation -/

/-- Label generated for one iterated catalog element (only dict elements
reach the label computation). -/
def labelOfElem : PyVal → String
  | PyVal.dict kvs => deptLabel kvs
  | _ => ""

/-- `d.get("departmentId")` of an iterated catalog element. -/
def idOfElem : PyVal → PyVal
  | PyVal.dict kvs => dictGet kvs "departmentId"
  | _ => PyVal.none

/-- `d.get('displayName','Unknown')` of an iterated catalog element. -/
def nameOfElem : PyVal → PyVal
  | PyVal.dict kvs => dictGetD kvs "displayName" (PyVal.str "Unknown")
  | _ => PyVal.none

/-- One `mapping[label] = d.get("departmentId")` step of the loop. -/
def deptStep (m : List (String × PyVal)) (d : PyVal) : List (String × PyVal) :=
  dictSet m (labelOfElem d) (idOfElem d)

/-- A catalog element on which the loop body does not raise: a dict. -/
def wfDept (d : PyVal) : Prop := ∃ kvs, d = PyVal.dict kvs

/-- A catalog element as the remote interface declares it: a dict whose
effective display name is a string and whose `departmentId` is an
integer. -/
def wfDeptRecord (d : PyVal) : Prop :=
  ∃ kvs s n, d = PyVal.dict kvs ∧
    dictGetD kvs "displayName" (PyVal.str "Unknown") = PyVal.str s ∧
    dictGet kvs "departmentId" = PyVal.int n

theorem dictGet_dictSet (m : List (String × PyVal)) (k k' : String) (v : PyVal) :
    dictGet (dictSet m k v) k' = if k' = k then v else dictGet m k' := by
  induction m with
  | nil =>
    by_cases h : k' = k
    · simp [dictSet, dictGet, h]
    · have h2 : ¬ k = k' := fun hh => h hh.symm
      simp [dictSet, dictGet, h, h2]
  | cons kv rest ih =>
    by_cases h : kv.1 = k
    · by_cases h' : k' = k
      · subst h'
        simp [dictSet, dictGet, h]
      · have hk : ¬ k = k' := fun hh => h' hh.symm
        have hk2 : ¬ kv.1 = k' := by rw [h]; exact hk
        simp [dictSet, dictGet, h, h', hk, hk2]
    · by_cases h' : kv.1 = k'
      · have hkk : ¬ k' = k := by rw [← h']; exact h
        simp [dictSet, dictGet, h, h', hkk]
      · simp [dictSet, dictGet, h, h', ih]

theorem buildDepts_ok :
    ∀ (es : List PyVal) (opts : List String) (m : List (String × PyVal)),
      (∀ d ∈ es, wfDept d) →
      buildDepts es opts m =
        Except.ok (opts ++ es.map labelOfElem, es.foldl deptStep m) := by
  intro es
  induction es with
  | nil => intro opts m _; simp [buildDepts]
  | cons d rest ih =>
    intro opts m hwf
    obtain ⟨kvs, rfl⟩ := hwf d (by simp)
    simp only [buildDepts]
    rw [ih _ _ (fun x hx => hwf x (by simp [hx]))]
    simp [labelOfElem, idOfElem, deptStep, List.foldl_cons, List.append_assoc]

theorem buildDepts_err :
    ∀ (es : List PyVal) (opts : List String) (m : List (String × PyVal)),
      (∃ d ∈ es, ¬ wfDept d) →
      ∃ e, buildDepts es opts m = Except.error e := by
  intro es
  induction es with
  | nil => intro _ _ h; simp at h
  | cons d rest ih =>
    intro opts m h
    cases d with
    | dict kvs =>
      obtain ⟨d', hd', hnd⟩ := h
      rcases List.mem_cons.mp hd' with rfl | hmem
      · exact absurd ⟨kvs, rfl⟩ hnd
      · simp only [buildDepts]
        exact ih _ _ ⟨d', hmem, hnd⟩
    | none => exact ⟨PyErr.attributeErr, rfl⟩
    | bool b => exact ⟨PyErr.attributeErr, rfl⟩
    | int n => exact ⟨PyErr.attributeErr, rfl⟩
    | str s => exact ⟨PyErr.attributeErr, rfl⟩
    | list xs => exact ⟨PyErr.attributeErr, rfl⟩

theorem foldl_deptStep_get :
    ∀ (es : List PyVal) (m : List (String × PyVal)) (k : String),
      dictGet (es.foldl deptStep m) k =
        match es.reverse.find? (fun d => labelOfElem d == k) with
        | Option.some d => idOfElem d
        | Option.none => dictGet m k := by
  intro es
  induction es with
  | nil => intro m k; simp
  | cons d rest ih =>
    intro m k
    simp only [List.foldl_cons, List.reverse_cons, List.find?_append]
    rw [ih]
    cases hfind : rest.reverse.find? (fun d => labelOfElem d == k) with
    | some d' => simp [hfind]
    | none =>
      simp only [hfind, Option.none_or]
      simp only [List.find?_cons, List.find?_nil]
      by_cases hl : labelOfElem d = k
      · have hb : (labelOfElem d == k) = true := beq_iff_eq.mpr hl
        simp only [hb, cond_true]
        rw [deptStep, dictGet_dictSet, if_pos hl.symm]
      · have hb : (labelOfElem d == k) = false := beq_eq_false_iff_ne.mpr hl
        simp only [hb, cond_false]
        rw [deptStep, dictGet_dictSet, if_neg (fun hh => hl hh.symm)]

theorem pyOr_dict_empty (kvs : List (String × PyVal)) :
    pyOr (PyVal.dict kvs) (PyVal.dict []) = PyVal.dict kvs := by
  cases kvs <;> simp [pyOr, pyTruthy]

/-- On a 200 response whose body is an object with a `departments` list of
dicts, `fetch_departments` returns the sentinel-headed options and the
loop-built mapping. -/
theorem fetch_departments_success (kvs : List (String × PyVal)) (es : List PyVal)
    (hd : dictGetD kvs "departments" (PyVal.list []) = PyVal.list es)
    (hwf : ∀ d ∈ es, wfDept d) :
    fetch_departments (HttpResult.response 200 (Option.some (PyVal.dict kvs))) =
      ("All Departments" :: es.map labelOfElem,
       es.foldl deptStep [("All Departments", PyVal.none)]) := by
  have h200 : raiseForStatus 200 = Except.ok () := by simp [raiseForStatus]
  simp only [fetch_departments, tryFetchDepartments, h200, pyOr_dict_empty, hd, pyIter]
  rw [buildDepts_ok es _ _ hwf]
  rfl

theorem labelOfElem_shape (d : PyVal) (h : wfDeptRecord d) :
    ∃ s n, nameOfElem d = PyVal.str s ∧ idOfElem d = PyVal.int n ∧
      labelOfElem d = s ++ " (" ++ pyIntStr n ++ ")" := by
  obtain ⟨kvs, s, n, rfl, hs, hn⟩ := h
  refine ⟨s, n, ?_, ?_, ?_⟩
  · simpa [nameOfElem] using hs
  · simpa [idOfElem] using hn
  · simp only [labelOfElem, deptLabel, hs, hn]
    rfl

/-- Well-formed catalog entries with equal labels have equal effective
display names and equal department ids. -/
theorem label_inj_of_wf (d d' : PyVal) (h : wfDeptRecord d) (h' : wfDeptRecord d')
    (heq : labelOfElem d = labelOfElem d') :
    nameOfElem d = nameOfElem d' ∧ idOfElem d = idOfElem d' := by
  obtain ⟨s, n, hs, hn, hl⟩ := labelOfElem_shape d h
  obtain ⟨s', n', hs', hn', hl'⟩ := labelOfElem_shape d' h'
  rw [hl, hl'] at heq
  have := label_parts_eq s s' (pyIntStr n) (pyIntStr n')
    (pyIntStr_no_lparen n) (pyIntStr_no_lparen n') heq
  constructor
  · rw [hs, hs', this.1]
  · rw [hn, hn', pyIntStr_inj n n' this.2]

theorem labelOfElem_ne_sentinel (d : PyVal) (h : wfDeptRecord d) :
    labelOfElem d ≠ "All Departments" := by
  obtain ⟨s, n, _, _, hl⟩ := labelOfElem_shape d h
  rw [hl]
  exact label_ne_sentinel s (pyIntStr n)

/-- The sentinel key still maps to `None` after the loop. -/
theorem mapping_get_sentinel (es : List PyVal) (hwf : ∀ d ∈ es, wfDeptRecord d) :
    dictGet (es.foldl deptStep [("All Departments", PyVal.none)])
      "All Departments" = PyVal.none := by
  rw [foldl_deptStep_get]
  have hnone : es.reverse.find?
      (fun d => labelOfElem d == "All Departments") = Option.none := by
    rw [List.find?_eq_none]
    intro d hd
    simp only [beq_eq_false_iff_ne, ne_eq, Bool.not_eq_true, beq_iff_eq]
    exact labelOfElem_ne_sentinel d (hwf d (List.mem_reverse.mp hd))
  rw [hnone]
  rfl

/-- Every catalog entry's label maps back to that entry's department id
(entries generating the same label carry the same id, so later overwrites
are harmless). -/
theorem mapping_get_label (es : List PyVal) (hwf : ∀ d ∈ es, wfDeptRecord d)
    (d : PyVal) (hd : d ∈ es) :
    dictGet (es.foldl deptStep [("All Departments", PyVal.none)])
      (labelOfElem d) = idOfElem d := by
  rw [foldl_deptStep_get]
  cases hfind : es.reverse.find? (fun x => labelOfElem x == labelOfElem d) with
  | none =>
    exfalso
    rw [List.find?_eq_none] at hfind
    have := hfind d (List.mem_reverse.mpr hd)
    simp at this
  | some d' =>
    have hmem : d' ∈ es := List.mem_reverse.mp (List.mem_of_find?_eq_some hfind)
    have hlab : labelOfElem d' = labelOfElem d := by
      have := List.find?_some hfind
      simpa using this
    exact (label_inj_of_wf d' d (hwf d' hmem) (hwf d hd) hlab).2

/-! ## Render loop: order preservation and counting -/

/-- Truthiness of a per-object fetch outcome, as `if not obj:` tests it:
`None` and the empty record are falsy, every other record is truthy. -/
def truthyObj : Option (List (String × PyVal)) → Bool
  | Option.none => false
  | Option.some kvs => !kvs.isEmpty

theorem renderLoop_map_oid (fetch : Int → Option (List (String × PyVal))) :
    ∀ (l : List Int) (i : Nat),
      (renderLoop fetch i l).map Card.oid =
        l.filter (fun o => truthyObj (fetch o)) := by
  intro l
  induction l with
  | nil => intro i; simp [renderLoop]
  | cons oid rest ih =>
    intro i
    simp only [renderLoop, List.filter_cons]
    cases hf : fetch oid with
    | none => simp [truthyObj, ih]
    | some kvs =>
      by_cases he : kvs.isEmpty
      · simp [he, truthyObj, ih]
      · have : truthyObj (Option.some kvs) = true := by
          simp [truthyObj, he]
        simp [he, this, ih, renderCard]

/-- The object ids of the rendered cards, in render order: the truthy
prefix-filter of `ids[:max_n]`. -/
theorem renderCards_map_oid (fetch : Int → Option (List (String × PyVal)))
    (ids : List Int) (max_n : Nat) :
    (renderCards fetch ids max_n).map Card.oid =
      (ids.take max_n).filter (fun o => truthyObj (fetch o)) := by
  exact renderLoop_map_oid fetch (ids.take max_n) 0

theorem renderCards_sublist (fetch : Int → Option (List (String × PyVal)))
    (ids : List Int) (max_n : Nat) :
    List.Sublist ((renderCards fetch ids max_n).map Card.oid) ids := by
  rw [renderCards_map_oid]
  exact (List.filter_sublist _).trans (List.take_sublist max_n ids)

/-! ## Claim theorems -/

/-- C1 counterexample: on a request timeout, `fetch_object` does not return
the absence value — the `requests` exception propagates (there is no
`try:` in `fetch_object`), contradicting "returns None for any other
status or outcome (including timeout), never raising". -/
theorem fetch_object_timeout_not_absent :
    fetch_object HttpResult.timeout ≠ Except.ok Option.none := by
  simp [fetch_object]

/-- C1 (amended): `fetch_object` returns the parsed record exactly on a
completed status-200 response, and the absence value for any other
completed status; but a timeout, a connection error, or an unparseable
status-200 body raises (propagates an exception). -/
theorem fetch_object_spec :
    (∀ (s : Nat) (body : Option PyVal), s ≠ 200 →
        fetch_object (HttpResult.response s body) = Except.ok Option.none)
    ∧ (∀ js : PyVal,
        fetch_object (HttpResult.response 200 (Option.some js)) =
          Except.ok (Option.some js))
    ∧ fetch_object HttpResult.timeout = Except.error PyErr.timeoutErr
    ∧ fetch_object HttpResult.connError = Except.error PyErr.connectionErr
    ∧ fetch_object (HttpResult.response 200 Option.none) =
        Except.error PyErr.jsonErr := by
  refine ⟨?_, ?_, rfl, rfl, by simp [fetch_object]⟩
  · intro s body hs
    simp [fetch_object, hs]
  · intro js
    simp [fetch_object]

/-- C1 witness: a completed 404 response yields the absence value. -/
theorem fetch_object_spec_witness :
    (404 ≠ 200) ∧
      fetch_object (HttpResult.response 404 Option.none) = Except.ok Option.none :=
  ⟨by decide, fetch_object_spec.1 404 Option.none (by decide)⟩

/-- C3 counterexample: `departmentId = 0` is a non-null integer, yet
`if department_id:` is falsy on `0`, so the parameter is omitted from the
outbound request. -/
theorem search_params_zero_omitted :
    "departmentId" ∉ (search_params "cat" true (Option.some 0)).map Prod.fst := by
  decide

/-- C3 (amended): the request always carries `q=query` and
`hasImages=hasImages`, and carries `departmentId` exactly when the
optional department id is present and nonzero (Python truthiness of the
optional integer), with the integer value passed through. -/
theorem search_params_spec (q : String) (h : Bool) (dOpt : Option Int) :
    dictGet (search_params q h dOpt) "q" = PyVal.str q
    ∧ dictGet (search_params q h dOpt) "hasImages" = PyVal.bool h
    ∧ ((search_params q h dOpt).find? (fun kv => kv.1 == "departmentId") =
        match dOpt with
        | Option.some d =>
            if d = 0 then Option.none
            else Option.some ("departmentId", PyVal.int d)
        | Option.none => Option.none) := by
  rcases dOpt with _ | d
  · refine ⟨?_, ?_, ?_⟩ <;> simp [search_params, dictGet, List.find?]
  · by_cases hd : d = 0
    · subst hd
      refine ⟨?_, ?_, ?_⟩ <;> simp [search_params, dictGet, List.find?]
    · refine ⟨?_, ?_, ?_⟩ <;> simp [search_params, dictGet, List.find?, hd]

/-- C6: an empty or whitespace-only keyword makes the search handler warn
and halt before any call to `search_ids`. -/
theorem empty_query_warns (q : String) (has_images : Bool) (dept_id : Option Int)
    (h : ∀ c ∈ q.data, pyIsSpace c = true) :
    search_btn_handler q has_images dept_id = HandlerStep.warned := by
  have h1 : q.data.dropWhile pyIsSpace = [] :=
    List.dropWhile_eq_nil_iff.mpr h
  have hstrip : pyStrip q = "" := by
    apply String.ext
    simp [pyStrip, h1]
  simp [search_btn_handler, hstrip]

/-- C6 witness: a whitespace-only keyword triggers the warning path. -/
theorem empty_query_warns_witness :
    (∀ c ∈ (" " : String).data, pyIsSpace c = true)
    ∧ search_btn_handler " " true Option.none = HandlerStep.warned :=
  ⟨by decide, empty_query_warns " " true Option.none (by decide)⟩

theorem pyOr_list_empty (l : List PyVal) :
    pyOr (PyVal.list l) (PyVal.list []) = PyVal.list l := by
  cases l <;> simp [pyOr, pyTruthy]

theorem dictGetD_of_absent :
    ∀ (kvs : List (String × PyVal)) (k : String) (dflt : PyVal),
      (∀ kv ∈ kvs, kv.1 ≠ k) → dictGetD kvs k dflt = dflt := by
  intro kvs
  induction kvs with
  | nil => intro k dflt _; rfl
  | cons kv rest ih =>
    intro k dflt h
    simp only [dictGetD]
    rw [if_neg (h kv (by simp)), ih k dflt (fun x hx => h x (by simp [hx]))]

/-- The fetch outcome used by the C4 counterexample: object 1 fetches as
an empty (falsy) record, every other object as a one-field record. -/
def fetchCexC4 : Int → Option (List (String × PyVal)) :=
  fun o => if o = 1 then Option.some [] else Option.some [("title", PyVal.str "T")]

/-- C4 counterexample: object 1's fetch is not absent (a record was
returned), yet its card is skipped because the record is falsy, so the
rendered cards are not "ids with (only) absent objects skipped". -/
theorem render_not_skip_absent_only :
    (renderCards fetchCexC4 [1, 2] 2).map Card.oid ≠
      (([1, 2] : List Int).take 2).filter (fun o => (fetchCexC4 o).isSome) := by
  decide

/-- C4 (amended): the rendered cards are an order-preserving truncation of
`ids`: their object ids are exactly `ids[:max_n]` filtered to the truthy
fetch outcomes (absent or falsy records skipped), in increasing index
order, hence a sublist of `ids` — no reordering. -/
theorem render_order_spec (fetch : Int → Option (List (String × PyVal)))
    (ids : List Int) (max_n : Nat) :
    (renderCards fetch ids max_n).map Card.oid =
      (ids.take max_n).filter (fun o => truthyObj (fetch o))
    ∧ List.Sublist ((renderCards fetch ids max_n).map Card.oid) ids :=
  ⟨renderCards_map_oid fetch ids max_n, renderCards_sublist fetch ids max_n⟩

/-- The fetch outcome used by the C5 counterexample: every object fetches
as an empty (falsy) record. -/
def fetchCexC5 : Int → Option (List (String × PyVal)) :=
  fun _ => Option.some []

/-- C5 counterexample: with one id whose fetch returns an empty record
(not absence), zero cards are rendered although the claimed count
`min(max_n, len ids) - #absences` is 1. -/
theorem render_count_not_bound_minus_absences :
    (renderCards fetchCexC5 [1] 1).length ≠
      min 1 ([1] : List Int).length -
        ((([1] : List Int).take 1).filter (fun o => (fetchCexC5 o).isNone)).length := by
  decide

theorem filter_length_split (l : List Int) (p : Int → Bool) :
    l.length = (l.filter p).length + (l.filter (fun o => !p o)).length := by
  simpa using List.length_eq_length_filter_add (l := l) p

/-- C5 (amended): the number of rendered cards is at most
`min(max_n, len ids)` and equals that bound minus the number of attempted
per-object fetches whose outcome was falsy (absence or an empty record). -/
theorem render_count_spec (fetch : Int → Option (List (String × PyVal)))
    (ids : List Int) (max_n : Nat) :
    (renderCards fetch ids max_n).length =
      min max_n ids.length -
        ((ids.take max_n).filter (fun o => !truthyObj (fetch o))).length
    ∧ (renderCards fetch ids max_n).length ≤ min max_n ids.length := by
  have hlen : (renderCards fetch ids max_n).length =
      ((ids.take max_n).filter (fun o => truthyObj (fetch o))).length := by
    rw [← renderCards_map_oid fetch ids max_n, List.length_map]
  have hsplit := filter_length_split (ids.take max_n) (fun o => truthyObj (fetch o))
  have htake : (ids.take max_n).length = min max_n ids.length :=
    List.length_take max_n ids
  constructor
  · rw [hlen]
    omega
  · rw [hlen, ← htake]
    exact List.length_filter_le _ _

/-- C7: on a successful (status-200, well-formed) search response,
`search_ids` returns the `objectIDs` sequence exactly as the service
provided it (possibly empty) together with the integer `total`, and
substitutes 0 when the `total` field is absent. -/
theorem search_ids_success (q : String) (hi : Bool) (d : Option Int)
    (kvs : List (String × PyVal)) (l : List PyVal)
    (h : dictGet kvs "objectIDs" = PyVal.list l) :
    (∀ t : Int, dictGetD kvs "total" (PyVal.int 0) = PyVal.int t →
      search_ids q hi d (fun _ => HttpResult.response 200 (Option.some (PyVal.dict kvs))) =
        Except.ok (PyVal.list l, t))
    ∧ ((∀ kv ∈ kvs, kv.1 ≠ "total") →
      search_ids q hi d (fun _ => HttpResult.response 200 (Option.some (PyVal.dict kvs))) =
        Except.ok (PyVal.list l, 0)) := by
  have h200 : raiseForStatus 200 = Except.ok () := by simp [raiseForStatus]
  constructor
  · intro t ht
    simp only [search_ids, h200, pyOr_dict_empty, ht, pyToInt, h, pyOr_list_empty]
  · intro habs
    have ht : dictGetD kvs "total" (PyVal.int 0) = PyVal.int 0 :=
      dictGetD_of_absent kvs "total" (PyVal.int 0) habs
    simp only [search_ids, h200, pyOr_dict_empty, ht, pyToInt, h, pyOr_list_empty]

/-- C7 witness: a concrete well-formed search response. -/
theorem search_ids_success_witness :
    dictGet [("objectIDs", PyVal.list [PyVal.int 3, PyVal.int 4]),
             ("total", PyVal.int 9)] "objectIDs" =
        PyVal.list [PyVal.int 3, PyVal.int 4]
    ∧ search_ids "flower" true Option.none
        (fun _ => HttpResult.response 200 (Option.some (PyVal.dict
          [("objectIDs", PyVal.list [PyVal.int 3, PyVal.int 4]),
           ("total", PyVal.int 9)]))) =
        Except.ok (PyVal.list [PyVal.int 3, PyVal.int 4], 9) :=
  ⟨rfl, (search_ids_success "flower" true Option.none
    [("objectIDs", PyVal.list [PyVal.int 3, PyVal.int 4]), ("total", PyVal.int 9)]
    [PyVal.int 3, PyVal.int 4] rfl).1 9 rfl⟩

/-- C10: on a successful well-formed search response (where `objectIDs`
is absent, null, or a list, and `total` is an integer or absent), the ids
component `search_ids` returns is always a list; in particular an absent
or null `objectIDs` yields the empty list, never a null value. -/
theorem search_ids_always_list (q : String) (hi : Bool) (d : Option Int)
    (kvs : List (String × PyVal))
    (h : dictGet kvs "objectIDs" = PyVal.none ∨
         ∃ l, dictGet kvs "objectIDs" = PyVal.list l)
    (ht : ∃ t : Int, dictGetD kvs "total" (PyVal.int 0) = PyVal.int t) :
    ∃ (l' : List PyVal) (t' : Int),
      search_ids q hi d (fun _ => HttpResult.response 200 (Option.some (PyVal.dict kvs))) =
        Except.ok (PyVal.list l', t')
      ∧ (dictGet kvs "objectIDs" = PyVal.none → l' = []) := by
  obtain ⟨t, ht⟩ := ht
  have h200 : raiseForStatus 200 = Except.ok () := by simp [raiseForStatus]
  rcases h with h | ⟨l, h⟩
  · refine ⟨[], t, ?_, fun _ => rfl⟩
    simp only [search_ids, h200, pyOr_dict_empty, ht, pyToInt, h]
    rfl
  · refine ⟨l, t, ?_, fun hn => ?_⟩
    · simp only [search_ids, h200, pyOr_dict_empty, ht, pyToInt, h, pyOr_list_empty]
    · rw [h] at hn
      cases hn

/-- C10 witness: a response with a null `objectIDs` field yields the empty
list, not null. -/
theorem search_ids_always_list_witness :
    (dictGet [("objectIDs", PyVal.none), ("total", PyVal.int 7)] "objectIDs" =
        PyVal.none ∨
      ∃ l, dictGet [("objectIDs", PyVal.none), ("total", PyVal.int 7)]
        "objectIDs" = PyVal.list l)
    ∧ (∃ t : Int, dictGetD [("objectIDs", PyVal.none), ("total", PyVal.int 7)]
        "total" (PyVal.int 0) = PyVal.int t)
    ∧ ∃ (l' : List PyVal) (t' : Int),
        search_ids "cat" false Option.none
          (fun _ => HttpResult.response 200 (Option.some (PyVal.dict
            [("objectIDs", PyVal.none), ("total", PyVal.int 7)]))) =
          Except.ok (PyVal.list l', t')
        ∧ (dictGet [("objectIDs", PyVal.none), ("total", PyVal.int 7)]
            "objectIDs" = PyVal.none → l' = []) :=
  ⟨Or.inl rfl, ⟨7, rfl⟩,
    search_ids_always_list "cat" false Option.none
      [("objectIDs", PyVal.none), ("total", PyVal.int 7)] (Or.inl rfl) ⟨7, rfl⟩⟩

/-! ## Catalog failure modes (C2) -/

/-- A parsed catalog body on which the `try:` block cannot complete the
loop normally: the body (after `js or {}`) is not an object, its
`departments` value is not a list, or some listed element is not a dict. -/
def malformedCatalog (js : PyVal) : Prop :=
  (∀ kvs, pyOr js (PyVal.dict []) ≠ PyVal.dict kvs) ∨
  (∃ kvs, pyOr js (PyVal.dict []) = PyVal.dict kvs ∧
    ((∀ es, dictGetD kvs "departments" (PyVal.list []) ≠ PyVal.list es) ∨
     (∃ es, dictGetD kvs "departments" (PyVal.list []) = PyVal.list es ∧
        ∃ d ∈ es, ¬ wfDept d)))

/-- A failing catalog fetch: network error (timeout/connection), a 4xx/5xx
status, an unparseable body, or a malformed parsed body. -/
def catalogFailure : HttpResult → Prop
  | HttpResult.timeout => True
  | HttpResult.connError => True
  | HttpResult.response s body =>
      (400 ≤ s ∧ s < 600) ∨ body = Option.none ∨
        ∃ js, body = Option.some js ∧ malformedCatalog js

/-- C2 (amended): on every failing catalog fetch — network error,
malformed response, or 4xx/5xx status — `fetch_departments` returns
exactly the one-element fallback; the `except Exception:` handler means it
never raises.  (A 3xx final status is not treated as a failure by
`raise_for_status`, see the counterexample.) -/
theorem fetch_departments_fallback :
    ∀ o : HttpResult, catalogFailure o →
      fetch_departments o =
        (["All Departments"], [("All Departments", PyVal.none)]) := by
  intro o h
  cases o with
  | timeout => rfl
  | connError => rfl
  | response s body =>
    simp only [catalogFailure] at h
    rcases h with hs | hb | ⟨js, rfl, hm⟩
    · have hrs : raiseForStatus s = Except.error (PyErr.httpErr s) := by
        simp [raiseForStatus, hs.1, hs.2]
      simp [fetch_departments, tryFetchDepartments, hrs]
    · subst hb
      cases hrs : raiseForStatus s with
      | error e => simp [fetch_departments, tryFetchDepartments, hrs]
      | ok u => simp [fetch_departments, tryFetchDepartments, hrs]
    · cases hrs : raiseForStatus s with
      | error e => simp [fetch_departments, tryFetchDepartments, hrs]
      | ok u =>
        rcases hm with hnd | ⟨kvs, hkvs, hdep⟩
        · cases hjs : pyOr js (PyVal.dict []) with
          | dict kvs => exact absurd hjs (hnd kvs)
          | none => simp [fetch_departments, tryFetchDepartments, hrs, hjs]
          | bool b => simp [fetch_departments, tryFetchDepartments, hrs, hjs]
          | int n => simp [fetch_departments, tryFetchDepartments, hrs, hjs]
          | str st => simp [fetch_departments, tryFetchDepartments, hrs, hjs]
          | list xs => simp [fetch_departments, tryFetchDepartments, hrs, hjs]
        · rcases hdep with hno | ⟨es, hes, hbad⟩
          · cases hdm : dictGetD kvs "departments" (PyVal.list []) with
            | list es => exact absurd hdm (hno es)
            | none =>
              simp [fetch_departments, tryFetchDepartments, hrs, hkvs, hdm, pyIter]
            | bool b =>
              simp [fetch_departments, tryFetchDepartments, hrs, hkvs, hdm, pyIter]
            | int n =>
              simp [fetch_departments, tryFetchDepartments, hrs, hkvs, hdm, pyIter]
            | str st =>
              cases hchars : st.data with
              | nil =>
                simp [fetch_departments, tryFetchDepartments, hrs, hkvs, hdm,
                  pyIter, hchars, buildDepts]
              | cons c cs =>
                simp [fetch_departments, tryFetchDepartments, hrs, hkvs, hdm,
                  pyIter, hchars, buildDepts]
            | dict kvs2 =>
              cases kvs2 with
              | nil =>
                simp [fetch_departments, tryFetchDepartments, hrs, hkvs, hdm,
                  pyIter, buildDepts]
              | cons kv rest =>
                simp [fetch_departments, tryFetchDepartments, hrs, hkvs, hdm,
                  pyIter, buildDepts]
          · obtain ⟨e, he⟩ := buildDepts_err es ["All Departments"]
              [("All Departments", PyVal.none)] hbad
            simp [fetch_departments, tryFetchDepartments, hrs, hkvs, hes, pyIter, he]

/-- C2 witness: a timeout yields exactly the fallback. -/
theorem fetch_departments_fallback_witness :
    catalogFailure HttpResult.timeout ∧
      fetch_departments HttpResult.timeout =
        (["All Departments"], [("All Departments", PyVal.none)]) :=
  ⟨trivial, fetch_departments_fallback HttpResult.timeout trivial⟩

/-- C2 counterexample: a final status of 300 is not 2xx, yet
`raise_for_status` raises only on 4xx/5xx, so a well-formed body on a 300
response is processed normally and the result is not the fallback. -/
theorem fetch_departments_300_not_fallback :
    fetch_departments (HttpResult.response 300 (Option.some (PyVal.dict
        [("departments", PyVal.list [PyVal.dict
          [("displayName", PyVal.str "Arms"), ("departmentId", PyVal.int 4)]])]))) ≠
      (["All Departments"], [("All Departments", PyVal.none)]) := by
  intro h
  have heval : fetch_departments (HttpResult.response 300 (Option.some (PyVal.dict
      [("departments", PyVal.list [PyVal.dict
        [("displayName", PyVal.str "Arms"), ("departmentId", PyVal.int 4)]])]))) =
      (["All Departments", "Arms (4)"],
       [("All Departments", PyVal.none), ("Arms (4)", PyVal.int 4)]) := rfl
  rw [heval] at h
  have h2 := congrArg Prod.fst h
  simp at h2

/-- C8: on a successful catalog response (status 200, object body whose
`departments` field is a list of well-formed records), the options start
with the fixed sentinel, followed by one generated
`"<displayName> (<departmentId>)"` label per catalog entry in catalog
order; the sentinel maps to `None` and every entry's label maps back to
that entry's department id. -/
theorem fetch_departments_catalog (kvs : List (String × PyVal)) (es : List PyVal)
    (hd : dictGetD kvs "departments" (PyVal.list []) = PyVal.list es)
    (hwf : ∀ d ∈ es, wfDeptRecord d) :
    (fetch_departments (HttpResult.response 200 (Option.some (PyVal.dict kvs)))).1 =
      "All Departments" :: es.map labelOfElem
    ∧ (∀ d ∈ es, ∃ s n, nameOfElem d = PyVal.str s ∧ idOfElem d = PyVal.int n ∧
        labelOfElem d = s ++ " (" ++ pyIntStr n ++ ")")
    ∧ dictGet (fetch_departments
        (HttpResult.response 200 (Option.some (PyVal.dict kvs)))).2
        "All Departments" = PyVal.none
    ∧ ∀ d ∈ es, dictGet (fetch_departments
        (HttpResult.response 200 (Option.some (PyVal.dict kvs)))).2
        (labelOfElem d) = idOfElem d := by
  have hwf' : ∀ d ∈ es, wfDept d := by
    intro d hd'
    obtain ⟨k, _, _, h1, _, _⟩ := hwf d hd'
    exact ⟨k, h1⟩
  rw [fetch_departments_success kvs es hd hwf']
  refine ⟨rfl, ?_, mapping_get_sentinel es hwf, fun d hd' => mapping_get_label es hwf d hd'⟩
  intro d hd'
  exact labelOfElem_shape d (hwf d hd')

/-- C8 witness: a concrete one-entry catalog. -/
theorem fetch_departments_catalog_witness :
    (dictGetD [("departments", PyVal.list [PyVal.dict
        [("displayName", PyVal.str "Greek"), ("departmentId", PyVal.int 13)]])]
        "departments" (PyVal.list []) =
      PyVal.list [PyVal.dict
        [("displayName", PyVal.str "Greek"), ("departmentId", PyVal.int 13)]])
    ∧ (∀ d ∈ [PyVal.dict
        [("displayName", PyVal.str "Greek"), ("departmentId", PyVal.int 13)]],
        wfDeptRecord d)
    ∧ ((fetch_departments (HttpResult.response 200 (Option.some (PyVal.dict
          [("departments", PyVal.list [PyVal.dict
            [("displayName", PyVal.str "Greek"), ("departmentId", PyVal.int 13)]])])))).1 =
        "All Departments" :: [PyVal.dict
          [("displayName", PyVal.str "Greek"), ("departmentId", PyVal.int 13)]].map
            labelOfElem
      ∧ (∀ d ∈ [PyVal.dict
          [("displayName", PyVal.str "Greek"), ("departmentId", PyVal.int 13)]],
          ∃ s n, nameOfElem d = PyVal.str s ∧ idOfElem d = PyVal.int n ∧
            labelOfElem d = s ++ " (" ++ pyIntStr n ++ ")")
      ∧ dictGet (fetch_departments (HttpResult.response 200 (Option.some (PyVal.dict
          [("departments", PyVal.list [PyVal.dict
            [("displayName", PyVal.str "Greek"), ("departmentId", PyVal.int 13)]])])))).2
          "All Departments" = PyVal.none
      ∧ ∀ d ∈ [PyVal.dict
          [("displayName", PyVal.str "Greek"), ("departmentId", PyVal.int 13)]],
          dictGet (fetch_departments (HttpResult.response 200 (Option.some (PyVal.dict
            [("departments", PyVal.list [PyVal.dict
              [("displayName", PyVal.str "Greek"), ("departmentId", PyVal.int 13)]])])))).2
            (labelOfElem d) = idOfElem d) := by
  have hwf : ∀ d ∈ [PyVal.dict
      [("displayName", PyVal.str "Greek"), ("departmentId", PyVal.int 13)]],
      wfDeptRecord d := by
    intro d hd
    have : d = PyVal.dict
        [("displayName", PyVal.str "Greek"), ("departmentId", PyVal.int 13)] := by
      simpa using hd
    subst this
    exact ⟨[("displayName", PyVal.str "Greek"), ("departmentId", PyVal.int 13)],
      "Greek", 13, rfl, rfl, rfl⟩
  exact ⟨rfl, hwf, fetch_departments_catalog _ _ rfl hwf⟩

/-- C9 counterexample: a catalog fetch whose (well-formed) department list
repeats an entry produces duplicate labels in the returned options, so the
generated labels are not pairwise distinct for every fetch. -/
theorem dept_labels_duplicate :
    ¬ ((fetch_departments (HttpResult.response 200 (Option.some (PyVal.dict
        [("departments", PyVal.list
          [PyVal.dict [("displayName", PyVal.str "X"), ("departmentId", PyVal.int 1)],
           PyVal.dict [("displayName", PyVal.str "X"),
             ("departmentId", PyVal.int 1)]])])))).1).Nodup := by
  decide

/-- C9 (amended): the generated labels (and the sentinel) in the returned
options are pairwise distinct provided the catalog's well-formed entries
are pairwise distinct in their effective (displayName, departmentId)
pair; a fetch repeating an identical pair yields duplicate labels. -/
theorem dept_labels_nodup (kvs : List (String × PyVal)) (es : List PyVal)
    (hd : dictGetD kvs "departments" (PyVal.list []) = PyVal.list es)
    (hwf : ∀ d ∈ es, wfDeptRecord d)
    (hdist : es.Pairwise (fun d d' =>
      nameOfElem d ≠ nameOfElem d' ∨ idOfElem d ≠ idOfElem d')) :
    ((fetch_departments
        (HttpResult.response 200 (Option.some (PyVal.dict kvs)))).1).Nodup := by
  have hwf' : ∀ d ∈ es, wfDept d := by
    intro d hd'
    obtain ⟨k, _, _, h1, _, _⟩ := hwf d hd'
    exact ⟨k, h1⟩
  rw [fetch_departments_success kvs es hd hwf']
  rw [List.nodup_cons]
  constructor
  · intro hmem
    rw [List.mem_map] at hmem
    obtain ⟨d, hd', heq⟩ := hmem
    exact labelOfElem_ne_sentinel d (hwf d hd') heq
  · show (es.map labelOfElem).Pairwise (fun a b => a ≠ b)
    rw [List.pairwise_map]
    apply List.Pairwise.imp_of_mem ?_ hdist
    intro a b ha hb hab heq
    rcases hab with hn | hi
    · exact hn (label_inj_of_wf a b (hwf a ha) (hwf b hb) heq).1
    · exact hi (label_inj_of_wf a b (hwf a ha) (hwf b hb) heq).2

/-- C9 witness: two entries with distinct department ids yield pairwise
distinct options. -/
theorem dept_labels_nodup_witness :
    (∀ d ∈ [PyVal.dict [("displayName", PyVal.str "A"), ("departmentId", PyVal.int 1)],
            PyVal.dict [("displayName", PyVal.str "A"), ("departmentId", PyVal.int 2)]],
        wfDeptRecord d)
    ∧ ((fetch_departments (HttpResult.response 200 (Option.some (PyVal.dict
        [("departments", PyVal.list
          [PyVal.dict [("displayName", PyVal.str "A"), ("departmentId", PyVal.int 1)],
           PyVal.dict [("displayName", PyVal.str "A"),
             ("departmentId", PyVal.int 2)]])])))).1).Nodup := by
  have hwf : ∀ d ∈ [PyVal.dict
      [("displayName", PyVal.str "A"), ("departmentId", PyVal.int 1)],
      PyVal.dict [("displayName", PyVal.str "A"), ("departmentId", PyVal.int 2)]],
      wfDeptRecord d := by
    intro d hd
    rcases List.mem_cons.mp hd with rfl | hd2
    · exact ⟨[("displayName", PyVal.str "A"), ("departmentId", PyVal.int 1)],
        "A", 1, rfl, rfl, rfl⟩
    · have : d = PyVal.dict
          [("displayName", PyVal.str "A"), ("departmentId", PyVal.int 2)] := by
        simpa using hd2
      subst this
      exact ⟨[("displayName", PyVal.str "A"), ("departmentId", PyVal.int 2)],
        "A", 2, rfl, rfl, rfl⟩
  refine ⟨hwf, dept_labels_nodup _ _ rfl hwf ?_⟩
  refine List.Pairwise.cons ?_ (List.pairwise_singleton _ _)
  intro b hb
  have : b = PyVal.dict
      [("displayName", PyVal.str "A"), ("departmentId", PyVal.int 2)] := by
    simpa using hb
  subst this
  right
  simp [idOfElem, dictGet]
